import Mathlib

/-!
Shallow embedding of perfkitbenchmarker/linux_benchmarks/cluster_boot_benchmark.py.

Modelling conventions:
- Python float timestamps are modelled as exact rationals.
- A Python VM attribute that may be unset (None) is an Option.  Python
  truthiness (the source tests timestamps with plain if / assert, so None
  and 0.0 are both falsy) is the predicate truthy below; tv extracts the
  numeric value, with 0 for None (the source only reads a timestamp after
  a truthiness test, except where noted).
- assert failures and uncaught TypeError / ValueError abort the whole call
  without returning a list, so fallible functions return Option (List Sample)
  and every fatal path is none.  The source appends samples to a list as the
  loop runs; a fatal abort mid-loop discards that list, so grouping the
  per-instance appends into one list value is observationally identical.
- The id string formatting of create_delay_sec with one decimal place in
  metadata is kept as the raw rational value (formatting is presentation
  only and no claim depends on the formatted string).
- time.time() values and the results of concurrently run tasks are inputs
  of the embedded functions (they are environment nondeterminism).
-/

/-- Value of a possibly unset Python float attribute, 0 for None. -/
def tv : Option ℚ → ℚ
  | none => 0
  | some x => x

/-- Python truthiness of a possibly unset float attribute: None and 0.0 are falsy. -/
def truthy : Option ℚ → Bool
  | none => false
  | some x => decide (x ≠ 0)

/-- The two boolean flags read by GetTimeToBoot (FLAGS.cluster_boot_test_port_listening
and FLAGS.cluster_boot_test_rdp_port_listening). -/
structure Flags where
  cluster_boot_test_port_listening : Bool
  cluster_boot_test_rdp_port_listening : Bool
  deriving DecidableEq

/-- One virtual machine record with the lifecycle timestamps read by the benchmark.
isLinux models isinstance(vm, linux_virtual_machine.BaseLinuxMixin). -/
structure Vm where
  OS_TYPE : String
  isLinux : Bool
  create_start_time : Option ℚ
  create_return_time : Option ℚ
  is_running_time : Option ℚ
  ssh_internal_time : Option ℚ
  ssh_external_time : Option ℚ
  bootable_time : Option ℚ
  port_listening_time : Option ℚ
  rdp_port_listening_time : Option ℚ
  delete_start_time : ℚ
  delete_end_time : ℚ
  deriving DecidableEq

/-- The metadata dict attached to a sample.  Fields that a given sample does
not carry are none.  create_delay_sec and max_create_delay_sec are kept as raw
rationals (the source stores them string formatted to one decimal place). -/
structure Metadata where
  machine_instance : Option ℕ
  num_vms : ℕ
  os_type : String
  create_delay_sec : Option ℚ
  max_create_delay_sec : Option ℚ
  deriving DecidableEq

/-- sample.Sample(metric, value, unit, metadata). -/
structure Sample where
  metric : String
  value : ℚ
  unit : String
  metadata : Metadata
  deriving DecidableEq

/-- Minimum of a nonempty list of rationals (0 for the empty list, never used there). -/
def listMinQ : List ℚ → ℚ
  | [] => 0
  | [x] => x
  | x :: y :: ys => min x (listMinQ (y :: ys))

/-- Maximum of a nonempty list of rationals (0 for the empty list, never used there). -/
def listMaxQ : List ℚ → ℚ
  | [] => 0
  | [x] => x
  | x :: y :: ys => max x (listMaxQ (y :: ys))

/-- Python builtin min over a generator of possibly-None floats, as used at
min(vm.create_start_time for vm in vms).  Comparing None with a float raises
TypeError (a fatal abort, hence none); min of the empty generator raises
ValueError (none); min([None]) returns None itself, which also leads to a
fatal assert in the loop, so collapsing it to none here is observationally
identical for GetTimeToBoot.  optMin2 is the binary comparison: None on either
side is the TypeError case. -/
def optMin2 : Option ℚ → Option ℚ → Option ℚ
  | some a, some b => some (min a b)
  | _, _ => none

/-- Python builtin min over the create_start_time generator; see optMin2. -/
def pyMin : List (Option ℚ) → Option ℚ
  | [] => none
  | [x] => x
  | x :: y :: ys => optMin2 x (pyMin (y :: ys))

/-- Insert a string into a sorted list of strings. -/
def sortIns (s : String) : List String → List String
  | [] => [s]
  | x :: xs => if s ≤ x then s :: x :: xs else x :: sortIns s xs

/-- Sort a list of strings, modelling the Python builtin sorted. -/
def sortStrings (l : List String) : List String :=
  l.foldr sortIns []

/-- Add an element to a Python set modelled as a duplicate-free list. -/
def setAdd (l : List String) (s : String) : List String :=
  if s ∈ l then l else l ++ [s]

/-- Accumulator of the loop in GetTimeToBoot: the samples list, the running
maxima for the cluster metrics, and the os_types set. -/
structure BootAcc where
  samples : List Sample
  max_create_delay_sec : ℚ
  max_boot_time_sec : ℚ
  max_port_listening_time_sec : ℚ
  max_rdp_port_listening_time_sec : ℚ
  os_types : List String
  deriving DecidableEq

/-- The samples appended for one vm in one iteration of the loop of
GetTimeToBoot, in source order, given the reference time m, the cluster size
n and the position i of the vm.  Emission of each optional sample is guarded
by Python truthiness of its timestamp; the port listening samples are guarded
by their flags (their asserts are in bootVmStep). -/
def vmBootSamples (fl : Flags) (m : ℚ) (n i : ℕ) (vm : Vm) : List Sample :=
  let md : Metadata := ⟨some i, n, vm.OS_TYPE, some (tv vm.create_start_time - m), none⟩
  (if truthy vm.create_return_time then
    [⟨"Time to Create Async Return", tv vm.create_return_time - m, "seconds", md⟩]
  else [])
  ++ (if truthy vm.is_running_time then
    [⟨"Time to Running", tv vm.is_running_time - tv vm.create_start_time, "seconds", md⟩]
  else [])
  ++ (if vm.isLinux then
    (if truthy vm.ssh_external_time then
      [⟨"Time to SSH - External", tv vm.ssh_external_time - m, "seconds", md⟩]
    else [])
    ++ (if truthy vm.ssh_internal_time then
      [⟨"Time to SSH - Internal", tv vm.ssh_internal_time - m, "seconds", md⟩]
    else [])
  else [])
  ++ [⟨"Boot Time", tv vm.bootable_time - m, "seconds", md⟩]
  ++ (if fl.cluster_boot_test_port_listening then
    [⟨"Port Listening Time", tv vm.port_listening_time - m, "seconds", md⟩]
  else [])
  ++ (if fl.cluster_boot_test_rdp_port_listening then
    [⟨"RDP Port Listening Time", tv vm.rdp_port_listening_time - m, "seconds", md⟩]
  else [])

/-- One iteration of the loop in GetTimeToBoot.  The five guards are the
asserts of the source in source order (assert vm.create_start_time, assert
vm.bootable_time, assert vm.bootable_time >= vm.create_start_time, and the two
flag gated port listening asserts); a failed assert aborts the call. -/
def bootVmStep (fl : Flags) (m : ℚ) (n i : ℕ) (vm : Vm) (acc : BootAcc) : Option BootAcc :=
  if !truthy vm.create_start_time then none
  else if !truthy vm.bootable_time then none
  else if decide (tv vm.bootable_time < tv vm.create_start_time) then none
  else if fl.cluster_boot_test_port_listening
      && (!truthy vm.port_listening_time
          || decide (tv vm.port_listening_time < tv vm.create_start_time)) then none
  else if fl.cluster_boot_test_rdp_port_listening
      && (!truthy vm.rdp_port_listening_time
          || decide (tv vm.rdp_port_listening_time < tv vm.create_start_time)) then none
  else some
    ⟨acc.samples ++ vmBootSamples fl m n i vm,
     max acc.max_create_delay_sec (tv vm.create_start_time - m),
     max acc.max_boot_time_sec (tv vm.bootable_time - m),
     if fl.cluster_boot_test_port_listening then
       max acc.max_port_listening_time_sec (tv vm.port_listening_time - m)
     else acc.max_port_listening_time_sec,
     if fl.cluster_boot_test_rdp_port_listening then
       max acc.max_rdp_port_listening_time_sec (tv vm.rdp_port_listening_time - m)
     else acc.max_rdp_port_listening_time_sec,
     setAdd acc.os_types vm.OS_TYPE⟩

/-- The loop for i, vm in enumerate(vms) of GetTimeToBoot. -/
def bootLoop (fl : Flags) (m : ℚ) (n : ℕ) : ℕ → List Vm → BootAcc → Option BootAcc
  | _, [], acc => some acc
  | i, vm :: rest, acc =>
    match bootVmStep fl m n i vm acc with
    | none => none
    | some acc2 => bootLoop fl m n (i + 1) rest acc2

/-- GetTimeToBoot(vms): creates Samples for the boot time of a list of VMs.
Returns the per-instance samples followed by the cluster wide samples, or none
when an assert (or the builtin min on a None timestamp) aborts the call. -/
def GetTimeToBoot (fl : Flags) (vms : List Vm) : Option (List Sample) :=
  if vms.isEmpty then some []
  else
    match pyMin (vms.map Vm.create_start_time) with
    | none => none
    | some min_create_start_time =>
      match bootLoop fl min_create_start_time vms.length 0 vms ⟨[], 0, 0, 0, 0, []⟩ with
      | none => none
      | some acc =>
        let md : Metadata :=
          ⟨none, vms.length, String.intercalate "," (sortStrings acc.os_types),
           none, some acc.max_create_delay_sec⟩
        some (acc.samples
          ++ [⟨"Cluster Boot Time", acc.max_boot_time_sec, "seconds", md⟩]
          ++ (if fl.cluster_boot_test_port_listening then
              [⟨"Cluster Port Listening Time", acc.max_port_listening_time_sec,
                "seconds", md⟩]
            else [])
          ++ (if fl.cluster_boot_test_rdp_port_listening then
              [⟨"Cluster RDP Port Listening Time", acc.max_rdp_port_listening_time_sec,
                "seconds", md⟩]
            else []))

/-- _GetVmOperationDataSamples(operation_times, cluster_time, operation, vms):
one sample per (operation time, metadata) pair given by zip, then one cluster
sample. -/
def GetVmOperationDataSamples (operation_times : List ℚ) (cluster_time : ℚ)
    (operation : String) (vms : List Vm) : List Sample :=
  let metadata_list : List Metadata :=
    vms.enum.map fun p => ⟨some p.1, vms.length, p.2.OS_TYPE, none, none⟩
  ((operation_times.zip metadata_list).map fun q =>
    (⟨operation ++ " Time", q.1, "seconds", q.2⟩ : Sample))
  ++ [⟨"Cluster " ++ operation ++ " Time", cluster_time, "seconds",
      ⟨none, vms.length,
       String.intercalate "," (sortStrings (vms.map Vm.OS_TYPE).dedup), none, none⟩⟩]

/-- _MeasureReboot(vms).  The two time.time() readings around the fan-out and
the list of self measured reboot durations returned by RunThreaded are inputs:
they are environment nondeterminism.  The cluster reboot time is the wall
clock span of the fan-out, not an aggregate of the per instance durations. -/
def MeasureReboot (before_reboot_timestamp after_reboot_timestamp : ℚ)
    (reboot_times : List ℚ) (vms : List Vm) : List Sample :=
  let cluster_reboot_time := after_reboot_timestamp - before_reboot_timestamp
  GetVmOperationDataSamples reboot_times cluster_reboot_time "Reboot" vms

/-- MeasureDelete(vms).  The time.time() reading before the fan-out is an
input; the delete_start_time and delete_end_time fields have been populated by
the concurrently run Delete calls.  max of the empty list raises ValueError
(none). -/
def MeasureDelete (before_delete_timestamp : ℚ) (vms : List Vm) :
    Option (List Sample) :=
  if vms.isEmpty then none
  else
    let delete_times := vms.map fun vm => vm.delete_end_time - vm.delete_start_time
    let max_delete_end_time := listMaxQ (vms.map Vm.delete_end_time)
    let cluster_delete_time := max_delete_end_time - before_delete_timestamp
    some (GetVmOperationDataSamples delete_times cluster_delete_time "Delete" vms)

/-! Derived definitions used to state properties of the embedding. -/

/-- The reference time of a vm list: minimum create_start_time, reading unset
timestamps as 0 (only used where every create_start_time is set). -/
def refTimeQ (vms : List Vm) : ℚ :=
  listMinQ (vms.map fun vm => tv vm.create_start_time)

/-- The condition under which the loop body of GetTimeToBoot hits a failed
assert on a given vm: this is exactly the disjunction of the five assert
conditions of the source. -/
def fatalVm (fl : Flags) (vm : Vm) : Bool :=
  !truthy vm.create_start_time || !truthy vm.bootable_time
  || decide (tv vm.bootable_time < tv vm.create_start_time)
  || (fl.cluster_boot_test_port_listening
      && (!truthy vm.port_listening_time
          || decide (tv vm.port_listening_time < tv vm.create_start_time)))
  || (fl.cluster_boot_test_rdp_port_listening
      && (!truthy vm.rdp_port_listening_time
          || decide (tv vm.rdp_port_listening_time < tv vm.create_start_time)))

/-- The fixed intra-instance emission order of the per-instance metrics. -/
def metricOrder : List String :=
  ["Time to Create Async Return", "Time to Running", "Time to SSH - External",
   "Time to SSH - Internal", "Boot Time", "Port Listening Time",
   "RDP Port Listening Time"]

/-- Whether a per-instance metric of a given name is emitted for a given vm
under the given flags. -/
def emits (fl : Flags) (vm : Vm) (name : String) : Bool :=
  if name = "Time to Create Async Return" then truthy vm.create_return_time
  else if name = "Time to Running" then truthy vm.is_running_time
  else if name = "Time to SSH - External" then vm.isLinux && truthy vm.ssh_external_time
  else if name = "Time to SSH - Internal" then vm.isLinux && truthy vm.ssh_internal_time
  else if name = "Boot Time" then true
  else if name = "Port Listening Time" then fl.cluster_boot_test_port_listening
  else if name = "RDP Port Listening Time" then fl.cluster_boot_test_rdp_port_listening
  else false

/-- All per-instance samples of GetTimeToBoot, grouped by instance in input
order. -/
def perInstancePart (fl : Flags) (m : ℚ) (n : ℕ) (vms : List Vm) : List Sample :=
  vms.enum.flatMap fun p => vmBootSamples fl m n p.1 p.2

/-- The os_types set accumulated over a vm list. -/
def osTypesOf (vms : List Vm) : List String :=
  vms.foldl (fun a vm => setAdd a vm.OS_TYPE) []

/-- Running maximum (from 0) of create delays over a vm list. -/
def maxCreateDelayOf (m : ℚ) (vms : List Vm) : ℚ :=
  (vms.map fun vm => tv vm.create_start_time - m).foldl max 0

/-- Running maximum (from 0) of boot times over a vm list. -/
def maxBootOf (m : ℚ) (vms : List Vm) : ℚ :=
  (vms.map fun vm => tv vm.bootable_time - m).foldl max 0

/-- Running maximum (from 0) of port listening times over a vm list. -/
def maxPortOf (m : ℚ) (vms : List Vm) : ℚ :=
  (vms.map fun vm => tv vm.port_listening_time - m).foldl max 0

/-- Running maximum (from 0) of RDP port listening times over a vm list. -/
def maxRdpOf (m : ℚ) (vms : List Vm) : ℚ :=
  (vms.map fun vm => tv vm.rdp_port_listening_time - m).foldl max 0

/-- The cluster wide samples of GetTimeToBoot. -/
def clusterPart (fl : Flags) (m : ℚ) (vms : List Vm) : List Sample :=
  let md : Metadata :=
    ⟨none, vms.length, String.intercalate "," (sortStrings (osTypesOf vms)),
     none, some (maxCreateDelayOf m vms)⟩
  [⟨"Cluster Boot Time", maxBootOf m vms, "seconds", md⟩]
  ++ (if fl.cluster_boot_test_port_listening then
      [⟨"Cluster Port Listening Time", maxPortOf m vms, "seconds", md⟩]
    else [])
  ++ (if fl.cluster_boot_test_rdp_port_listening then
      [⟨"Cluster RDP Port Listening Time", maxRdpOf m vms, "seconds", md⟩]
    else [])

/-- Number of samples in a list with a given metric name. -/
def countMetric (s : List Sample) (name : String) : ℕ :=
  (s.filter fun smp => decide (smp.metric = name)).length

/-- Values of the samples of a given metric name attached to a given instance
index (per-instance samples carry machine_instance metadata). -/
def instValues (s : List Sample) (i : ℕ) (name : String) : List ℚ :=
  (s.filter fun smp =>
    decide (smp.metric = name ∧ smp.metadata.machine_instance = some i)).map Sample.value

/-- The total state transformer of one loop iteration, defined on inputs where
no assert fires. -/
def stepAcc (fl : Flags) (m : ℚ) (n i : ℕ) (vm : Vm) (acc : BootAcc) : BootAcc :=
  ⟨acc.samples ++ vmBootSamples fl m n i vm,
   max acc.max_create_delay_sec (tv vm.create_start_time - m),
   max acc.max_boot_time_sec (tv vm.bootable_time - m),
   if fl.cluster_boot_test_port_listening then
     max acc.max_port_listening_time_sec (tv vm.port_listening_time - m)
   else acc.max_port_listening_time_sec,
   if fl.cluster_boot_test_rdp_port_listening then
     max acc.max_rdp_port_listening_time_sec (tv vm.rdp_port_listening_time - m)
   else acc.max_rdp_port_listening_time_sec,
   setAdd acc.os_types vm.OS_TYPE⟩

/-- The total state transformer of the whole loop, defined on inputs where no
assert fires. -/
def loopAcc (fl : Flags) (m : ℚ) (n : ℕ) : ℕ → List Vm → BootAcc → BootAcc
  | _, [], acc => acc
  | i, vm :: rest, acc => loopAcc fl m n (i + 1) rest (stepAcc fl m n i vm acc)

/-- The cluster wide metric names in emission order. -/
def clusterMetricOrder : List String :=
  ["Cluster Boot Time", "Cluster Port Listening Time", "Cluster RDP Port Listening Time"]

/-! Helper lemmas about the small list functions. -/

theorem listMinQ_le_of_mem {l : List ℚ} {x : ℚ} (h : x ∈ l) : listMinQ l ≤ x := by
  induction l with
  | nil => cases h
  | cons a t ih =>
    cases t with
    | nil =>
      rw [List.mem_singleton.mp h]
      exact le_refl _
    | cons b u =>
      rcases List.mem_cons.mp h with h | h
      · subst h
        exact min_le_left _ _
      · exact le_trans (min_le_right _ _) (ih h)

theorem listMinQ_mem {l : List ℚ} (h : l ≠ []) : listMinQ l ∈ l := by
  induction l with
  | nil => exact absurd rfl h
  | cons a t ih =>
    cases t with
    | nil => simp [listMinQ]
    | cons b u =>
      rcases le_total a (listMinQ (b :: u)) with hle | hle
      · simp [listMinQ, min_eq_left hle]
      · have h2 : listMinQ (a :: b :: u) = listMinQ (b :: u) := by
          simp [listMinQ, min_eq_right hle]
        rw [h2]
        exact List.mem_cons_of_mem _ (ih (by simp))

theorem le_listMaxQ_of_mem {l : List ℚ} {x : ℚ} (h : x ∈ l) : x ≤ listMaxQ l := by
  induction l with
  | nil => cases h
  | cons a t ih =>
    cases t with
    | nil =>
      rw [List.mem_singleton.mp h]
      exact le_refl _
    | cons b u =>
      rcases List.mem_cons.mp h with h | h
      · subst h
        exact le_max_left _ _
      · exact le_trans (ih h) (le_max_right _ _)

theorem foldl_max_cons (l : List ℚ) : ∀ (a b : ℚ),
    (b :: l).foldl max a = max a (listMaxQ (b :: l)) := by
  induction l with
  | nil => intro a b; simp [listMaxQ]
  | cons c u ih =>
    intro a b
    have h1 : (b :: c :: u).foldl max a = (c :: u).foldl max (max a b) := by
      simp
    rw [h1, ih (max a b) c, listMaxQ, max_assoc]

theorem pyMin_of_all_some {l : List (Option ℚ)} (h : l ≠ [])
    (hs : ∀ o ∈ l, o ≠ none) : pyMin l = some (listMinQ (l.map tv)) := by
  induction l with
  | nil => exact absurd rfl h
  | cons x t ih =>
    cases t with
    | nil =>
      have hx := hs x (List.mem_cons_self _ _)
      cases x with
      | none => exact absurd rfl hx
      | some a => simp [pyMin, listMinQ, tv]
    | cons b u =>
      have hx := hs x (List.mem_cons_self _ _)
      have ht := ih (by simp) (fun o ho => hs o (List.mem_cons_of_mem _ ho))
      cases x with
      | none => exact absurd rfl hx
      | some a =>
        simp only [pyMin, ht, optMin2, List.map_cons]
        rfl

theorem pyMin_none_cases {l : List (Option ℚ)} (h : pyMin l = none) :
    l = [] ∨ none ∈ l := by
  induction l with
  | nil => exact Or.inl rfl
  | cons x t ih =>
    cases t with
    | nil =>
      simp only [pyMin] at h
      subst h
      exact Or.inr (List.mem_cons_self _ _)
    | cons b u =>
      simp only [pyMin] at h
      cases x with
      | none => exact Or.inr (List.mem_cons_self _ _)
      | some a =>
        cases hb : pyMin (b :: u) with
        | none =>
          rcases ih hb with h2 | h2
          · cases h2
          · exact Or.inr (List.mem_cons_of_mem _ h2)
        | some c => rw [hb] at h; simp [optMin2] at h

theorem pyMin_none_of_mem {l : List (Option ℚ)} (h : none ∈ l) : pyMin l = none := by
  induction l with
  | nil => cases h
  | cons x t ih =>
    cases t with
    | nil =>
      rw [List.mem_singleton.mp h]
      simp [pyMin]
    | cons b u =>
      rcases List.mem_cons.mp h with h | h
      · subst h
        simp [pyMin, optMin2]
      · rw [pyMin, ih h]
        cases x <;> simp [optMin2]

/-! Characterization of the loop of GetTimeToBoot. -/

theorem bootVmStep_none_iff (fl : Flags) (m : ℚ) (n i : ℕ) (vm : Vm) (acc : BootAcc) :
    bootVmStep fl m n i vm acc = none ↔ fatalVm fl vm = true := by
  unfold bootVmStep fatalVm
  cases h1 : truthy vm.create_start_time <;>
  cases h2 : truthy vm.bootable_time <;>
  cases h3 : decide (tv vm.bootable_time < tv vm.create_start_time) <;>
  cases h4 : (fl.cluster_boot_test_port_listening
      && (!truthy vm.port_listening_time
          || decide (tv vm.port_listening_time < tv vm.create_start_time))) <;>
  cases h5 : (fl.cluster_boot_test_rdp_port_listening
      && (!truthy vm.rdp_port_listening_time
          || decide (tv vm.rdp_port_listening_time < tv vm.create_start_time))) <;>
  simp [h1, h2, h3, h4, h5]

theorem bootVmStep_of_not_fatal {fl : Flags} {vm : Vm} (m : ℚ) (n i : ℕ)
    (acc : BootAcc) (h : fatalVm fl vm = false) :
    bootVmStep fl m n i vm acc = some (stepAcc fl m n i vm acc) := by
  simp only [fatalVm, Bool.or_eq_false_iff] at h
  obtain ⟨⟨⟨⟨h1, h2⟩, h3⟩, h4⟩, h5⟩ := h
  simp only [bootVmStep, stepAcc, h1, h2, h3, h4, h5, Bool.false_eq_true, if_false]

theorem bootLoop_none_iff (fl : Flags) (m : ℚ) (n : ℕ) :
    ∀ (l : List Vm) (i : ℕ) (acc : BootAcc),
      (bootLoop fl m n i l acc = none ↔ ∃ vm ∈ l, fatalVm fl vm = true) := by
  intro l
  induction l with
  | nil => intro i acc; simp [bootLoop]
  | cons vm rest ih =>
    intro i acc
    cases hf : fatalVm fl vm with
    | true =>
      have hstep : bootVmStep fl m n i vm acc = none :=
        (bootVmStep_none_iff fl m n i vm acc).mpr hf
      simp [bootLoop, hstep, hf]
    | false =>
      have hstep := bootVmStep_of_not_fatal m n i acc hf
      rw [bootLoop, hstep]
      simp only [ih]
      constructor
      · rintro ⟨vm2, hmem, hfat⟩
        exact ⟨vm2, List.mem_cons_of_mem _ hmem, hfat⟩
      · rintro ⟨vm2, hmem, hfat⟩
        rcases List.mem_cons.mp hmem with h | h
        · subst h; rw [hf] at hfat; cases hfat
        · exact ⟨vm2, h, hfat⟩

theorem bootLoop_of_not_fatal {fl : Flags} (m : ℚ) (n : ℕ) :
    ∀ (l : List Vm) (i : ℕ) (acc : BootAcc), (∀ vm ∈ l, fatalVm fl vm = false) →
      bootLoop fl m n i l acc = some (loopAcc fl m n i l acc) := by
  intro l
  induction l with
  | nil => intro i acc _; rfl
  | cons vm rest ih =>
    intro i acc h
    have hstep := bootVmStep_of_not_fatal m n i acc (h vm (List.mem_cons_self _ _))
    rw [bootLoop, hstep, loopAcc]
    exact ih (i + 1) _ (fun v hv => h v (List.mem_cons_of_mem _ hv))

theorem loopAcc_samples (fl : Flags) (m : ℚ) (n : ℕ) :
    ∀ (l : List Vm) (i : ℕ) (acc : BootAcc),
      (loopAcc fl m n i l acc).samples
        = acc.samples ++ (List.enumFrom i l).flatMap fun p => vmBootSamples fl m n p.1 p.2 := by
  intro l
  induction l with
  | nil => intro i acc; simp [loopAcc]
  | cons vm rest ih =>
    intro i acc
    rw [loopAcc, ih, List.enumFrom_cons]
    simp [stepAcc, List.flatMap_cons, List.append_assoc]

theorem loopAcc_max_boot (fl : Flags) (m : ℚ) (n : ℕ) :
    ∀ (l : List Vm) (i : ℕ) (acc : BootAcc),
      (loopAcc fl m n i l acc).max_boot_time_sec
        = (l.map fun vm => tv vm.bootable_time - m).foldl max acc.max_boot_time_sec := by
  intro l
  induction l with
  | nil => intro i acc; rfl
  | cons vm rest ih =>
    intro i acc
    rw [loopAcc, ih]
    rfl

theorem loopAcc_max_create_delay (fl : Flags) (m : ℚ) (n : ℕ) :
    ∀ (l : List Vm) (i : ℕ) (acc : BootAcc),
      (loopAcc fl m n i l acc).max_create_delay_sec
        = (l.map fun vm => tv vm.create_start_time - m).foldl max acc.max_create_delay_sec := by
  intro l
  induction l with
  | nil => intro i acc; rfl
  | cons vm rest ih =>
    intro i acc
    rw [loopAcc, ih]
    rfl

theorem loopAcc_max_port (fl : Flags) (m : ℚ) (n : ℕ)
    (hp : fl.cluster_boot_test_port_listening = true) :
    ∀ (l : List Vm) (i : ℕ) (acc : BootAcc),
      (loopAcc fl m n i l acc).max_port_listening_time_sec
        = (l.map fun vm => tv vm.port_listening_time - m).foldl max
            acc.max_port_listening_time_sec := by
  intro l
  induction l with
  | nil => intro i acc; rfl
  | cons vm rest ih =>
    intro i acc
    rw [loopAcc, ih]
    simp [stepAcc, hp]

theorem loopAcc_max_rdp (fl : Flags) (m : ℚ) (n : ℕ)
    (hp : fl.cluster_boot_test_rdp_port_listening = true) :
    ∀ (l : List Vm) (i : ℕ) (acc : BootAcc),
      (loopAcc fl m n i l acc).max_rdp_port_listening_time_sec
        = (l.map fun vm => tv vm.rdp_port_listening_time - m).foldl max
            acc.max_rdp_port_listening_time_sec := by
  intro l
  induction l with
  | nil => intro i acc; rfl
  | cons vm rest ih =>
    intro i acc
    rw [loopAcc, ih]
    simp [stepAcc, hp]

theorem loopAcc_os_types (fl : Flags) (m : ℚ) (n : ℕ) :
    ∀ (l : List Vm) (i : ℕ) (acc : BootAcc),
      (loopAcc fl m n i l acc).os_types
        = l.foldl (fun a vm => setAdd a vm.OS_TYPE) acc.os_types := by
  intro l
  induction l with
  | nil => intro i acc; rfl
  | cons vm rest ih =>
    intro i acc
    rw [loopAcc, ih]
    rfl

/-! Master characterization of GetTimeToBoot. -/

theorem fatalVm_of_cst_none {fl : Flags} {vm : Vm}
    (h : vm.create_start_time = none) : fatalVm fl vm = true := by
  simp [fatalVm, h, truthy]

theorem getTimeToBoot_none_char (fl : Flags) (vms : List Vm) :
    GetTimeToBoot fl vms = none ↔ ∃ vm ∈ vms, fatalVm fl vm = true := by
  unfold GetTimeToBoot
  cases hie : vms.isEmpty with
  | true =>
    have h0 : vms = [] := List.isEmpty_iff.mp hie
    subst h0
    simp
  | false =>
    have hne : vms ≠ [] := by
      intro h; subst h; simp at hie
    cases hpy : pyMin (vms.map Vm.create_start_time) with
    | none =>
      have hex : ∃ vm ∈ vms, fatalVm fl vm = true := by
        rcases pyMin_none_cases hpy with h | h
        · exact absurd (List.map_eq_nil_iff.mp h) hne
        · rcases List.mem_map.mp h with ⟨vm, hvm, heq⟩
          exact ⟨vm, hvm, fatalVm_of_cst_none heq⟩
      simp [hex]
    | some m =>
      simp only [Bool.false_eq_true, if_false]
      cases hloop : bootLoop fl m vms.length 0 vms ⟨[], 0, 0, 0, 0, []⟩ with
      | none =>
        have hex := (bootLoop_none_iff fl m vms.length vms 0
          ⟨[], 0, 0, 0, 0, []⟩).mp hloop
        simp [hex]
      | some acc =>
        constructor
        · intro h; exact absurd h (by simp)
        · intro h
          exfalso
          have h2 := (bootLoop_none_iff fl m vms.length vms 0
            ⟨[], 0, 0, 0, 0, []⟩).mpr h
          rw [hloop] at h2
          cases h2

theorem getTimeToBoot_decomp (fl : Flags) {vms : List Vm} (hne : vms ≠ [])
    (h : ∀ vm ∈ vms, fatalVm fl vm = false) :
    GetTimeToBoot fl vms
      = some (perInstancePart fl (refTimeQ vms) vms.length vms
          ++ clusterPart fl (refTimeQ vms) vms) := by
  have hie : vms.isEmpty = false := by
    cases vms with
    | nil => exact absurd rfl hne
    | cons a t => rfl
  have hs : ∀ o ∈ vms.map Vm.create_start_time, o ≠ none := by
    intro o ho hnone
    rcases List.mem_map.mp ho with ⟨vm, hvm, heq⟩
    subst hnone
    have h2 := h vm hvm
    rw [fatalVm_of_cst_none heq] at h2
    cases h2
  have hmapne : vms.map Vm.create_start_time ≠ [] := by
    intro h2; exact hne (List.map_eq_nil_iff.mp h2)
  have hpy : pyMin (vms.map Vm.create_start_time) = some (refTimeQ vms) := by
    rw [pyMin_of_all_some hmapne hs]
    rw [refTimeQ, List.map_map]
    rfl
  have hloop := bootLoop_of_not_fatal (refTimeQ vms) vms.length vms 0
    ⟨[], 0, 0, 0, 0, []⟩ h
  unfold GetTimeToBoot
  simp only [hie, Bool.false_eq_true, if_false, hpy, hloop]
  have hbase : ∀ u v : List Sample,
      u = v →
      some ((loopAcc fl (refTimeQ vms) vms.length 0 vms ⟨[], 0, 0, 0, 0, []⟩).samples ++ u)
        = some (perInstancePart fl (refTimeQ vms) vms.length vms ++ v) := by
    intro u v huv
    rw [huv, loopAcc_samples]
    simp [perInstancePart, List.enum, List.append_assoc]
  simp only [List.append_assoc]
  cases hp : fl.cluster_boot_test_port_listening <;>
    cases hr : fl.cluster_boot_test_rdp_port_listening
  · apply hbase
    simp only [clusterPart, maxBootOf, maxCreateDelayOf, osTypesOf, loopAcc_max_boot,
      loopAcc_max_create_delay, loopAcc_os_types, hp, hr, Bool.false_eq_true, if_false,
      List.append_nil, List.append_assoc]
  · apply hbase
    simp only [clusterPart, maxBootOf, maxCreateDelayOf, maxRdpOf, osTypesOf,
      loopAcc_max_boot, loopAcc_max_create_delay, loopAcc_os_types,
      loopAcc_max_rdp fl (refTimeQ vms) vms.length hr,
      hp, hr, Bool.false_eq_true, if_false, if_true, List.append_nil, List.nil_append,
      List.append_assoc]
  · apply hbase
    simp only [clusterPart, maxBootOf, maxCreateDelayOf, maxPortOf, osTypesOf,
      loopAcc_max_boot, loopAcc_max_create_delay, loopAcc_os_types,
      loopAcc_max_port fl (refTimeQ vms) vms.length hp,
      hp, hr, Bool.false_eq_true, if_false, if_true, List.append_nil, List.nil_append,
      List.append_assoc]
  · apply hbase
    simp only [clusterPart, maxBootOf, maxCreateDelayOf, maxPortOf, maxRdpOf, osTypesOf,
      loopAcc_max_boot, loopAcc_max_create_delay, loopAcc_os_types,
      loopAcc_max_port fl (refTimeQ vms) vms.length hp,
      loopAcc_max_rdp fl (refTimeQ vms) vms.length hr,
      hp, hr, Bool.false_eq_true, if_false, if_true, List.append_nil, List.nil_append,
      List.append_assoc]

/-! Shape of the per-instance and cluster sample groups. -/

theorem mem_iteSingleton {c : Prop} [Decidable c] {a smp : Sample}
    (h : smp ∈ (if c then [a] else [])) : smp = a := by
  by_cases hc : c
  · rw [if_pos hc] at h
    exact List.mem_singleton.mp h
  · rw [if_neg hc] at h
    cases h

theorem filter_iteSingleton (p : Sample → Bool) (c : Prop) [Decidable c] (a : Sample) :
    (if c then [a] else []).filter p
      = if c then (if p a = true then [a] else []) else [] := by
  by_cases hc : c <;> simp [hc, List.filter_singleton]

theorem mem_vmBootSamples {fl : Flags} {m : ℚ} {n i : ℕ} {vm : Vm} {smp : Sample}
    (h : smp ∈ vmBootSamples fl m n i vm) :
    smp.metadata = ⟨some i, n, vm.OS_TYPE, some (tv vm.create_start_time - m), none⟩
      ∧ smp.metric ∈ metricOrder := by
  simp only [vmBootSamples, List.mem_append] at h
  rcases h with ((((h | h) | h) | h) | h) | h
  · rw [mem_iteSingleton h]
    exact ⟨rfl, by simp [metricOrder]⟩
  · rw [mem_iteSingleton h]
    exact ⟨rfl, by simp [metricOrder]⟩
  · cases hl : vm.isLinux with
    | false => rw [hl] at h; simp at h
    | true =>
      rw [hl] at h
      simp only [if_true, List.mem_append] at h
      rcases h with h | h
      · rw [mem_iteSingleton h]
        exact ⟨rfl, by simp [metricOrder]⟩
      · rw [mem_iteSingleton h]
        exact ⟨rfl, by simp [metricOrder]⟩
  · rw [List.mem_singleton.mp h]
    exact ⟨rfl, by simp [metricOrder]⟩
  · rw [mem_iteSingleton h]
    exact ⟨rfl, by simp [metricOrder]⟩
  · rw [mem_iteSingleton h]
    exact ⟨rfl, by simp [metricOrder]⟩

theorem boot_mem_vmBootSamples (fl : Flags) (m : ℚ) (n i : ℕ) (vm : Vm) :
    (⟨"Boot Time", tv vm.bootable_time - m, "seconds",
      ⟨some i, n, vm.OS_TYPE, some (tv vm.create_start_time - m), none⟩⟩ : Sample)
      ∈ vmBootSamples fl m n i vm := by
  simp [vmBootSamples]

theorem mem_clusterPart {fl : Flags} {m : ℚ} {vms : List Vm} {smp : Sample}
    (h : smp ∈ clusterPart fl m vms) :
    smp.metadata.machine_instance = none ∧ smp.metadata.create_delay_sec = none
      ∧ smp.metric ∈ clusterMetricOrder := by
  simp only [clusterPart, List.mem_append] at h
  rcases h with (h | h) | h
  · rw [List.mem_singleton.mp h]
    exact ⟨rfl, rfl, by simp [clusterMetricOrder]⟩
  · rw [mem_iteSingleton h]
    exact ⟨rfl, rfl, by simp [clusterMetricOrder]⟩
  · rw [mem_iteSingleton h]
    exact ⟨rfl, rfl, by simp [clusterMetricOrder]⟩

theorem vmBootSamples_metrics (fl : Flags) (m : ℚ) (n i : ℕ) (vm : Vm) :
    (vmBootSamples fl m n i vm).map Sample.metric = metricOrder.filter (emits fl vm) := by
  cases h1 : truthy vm.create_return_time <;>
  cases h2 : truthy vm.is_running_time <;>
  cases hl : vm.isLinux <;>
  cases h3 : truthy vm.ssh_external_time <;>
  cases h4 : truthy vm.ssh_internal_time <;>
  cases hp : fl.cluster_boot_test_port_listening <;>
  cases hr : fl.cluster_boot_test_rdp_port_listening <;>
  simp [vmBootSamples, metricOrder, emits, h1, h2, hl, h3, h4, hp, hr]

/-- Generic computation of the per-instance samples of one metric name: filter
of one vm group by metric name, for each of the optional per-instance metrics. -/
theorem vmBootSamples_filter_car (fl : Flags) (m : ℚ) (n i : ℕ) (vm : Vm) :
    (vmBootSamples fl m n i vm).filter
        (fun smp => decide (smp.metric = "Time to Create Async Return"))
      = if truthy vm.create_return_time then
          [⟨"Time to Create Async Return", tv vm.create_return_time - m, "seconds",
            ⟨some i, n, vm.OS_TYPE, some (tv vm.create_start_time - m), none⟩⟩]
        else [] := by
  cases hl : vm.isLinux <;>
    simp [vmBootSamples, List.filter_append, filter_iteSingleton, hl,
      List.filter_singleton]

theorem vmBootSamples_filter_running (fl : Flags) (m : ℚ) (n i : ℕ) (vm : Vm) :
    (vmBootSamples fl m n i vm).filter
        (fun smp => decide (smp.metric = "Time to Running"))
      = if truthy vm.is_running_time then
          [⟨"Time to Running", tv vm.is_running_time - tv vm.create_start_time, "seconds",
            ⟨some i, n, vm.OS_TYPE, some (tv vm.create_start_time - m), none⟩⟩]
        else [] := by
  cases hl : vm.isLinux <;>
    simp [vmBootSamples, List.filter_append, filter_iteSingleton, hl,
      List.filter_singleton]

theorem vmBootSamples_filter_sshExt (fl : Flags) (m : ℚ) (n i : ℕ) (vm : Vm) :
    (vmBootSamples fl m n i vm).filter
        (fun smp => decide (smp.metric = "Time to SSH - External"))
      = if vm.isLinux && truthy vm.ssh_external_time then
          [⟨"Time to SSH - External", tv vm.ssh_external_time - m, "seconds",
            ⟨some i, n, vm.OS_TYPE, some (tv vm.create_start_time - m), none⟩⟩]
        else [] := by
  cases hl : vm.isLinux <;>
    simp [vmBootSamples, List.filter_append, filter_iteSingleton, hl,
      List.filter_singleton]

theorem vmBootSamples_filter_sshInt (fl : Flags) (m : ℚ) (n i : ℕ) (vm : Vm) :
    (vmBootSamples fl m n i vm).filter
        (fun smp => decide (smp.metric = "Time to SSH - Internal"))
      = if vm.isLinux && truthy vm.ssh_internal_time then
          [⟨"Time to SSH - Internal", tv vm.ssh_internal_time - m, "seconds",
            ⟨some i, n, vm.OS_TYPE, some (tv vm.create_start_time - m), none⟩⟩]
        else [] := by
  cases hl : vm.isLinux <;>
    simp [vmBootSamples, List.filter_append, filter_iteSingleton, hl,
      List.filter_singleton]

theorem vmBootSamples_filter_boot (fl : Flags) (m : ℚ) (n i : ℕ) (vm : Vm) :
    (vmBootSamples fl m n i vm).filter
        (fun smp => decide (smp.metric = "Boot Time"))
      = [⟨"Boot Time", tv vm.bootable_time - m, "seconds",
          ⟨some i, n, vm.OS_TYPE, some (tv vm.create_start_time - m), none⟩⟩] := by
  cases hl : vm.isLinux <;>
    simp [vmBootSamples, List.filter_append, filter_iteSingleton, hl,
      List.filter_singleton]

theorem vmBootSamples_filter_port (fl : Flags) (m : ℚ) (n i : ℕ) (vm : Vm) :
    (vmBootSamples fl m n i vm).filter
        (fun smp => decide (smp.metric = "Port Listening Time"))
      = if fl.cluster_boot_test_port_listening then
          [⟨"Port Listening Time", tv vm.port_listening_time - m, "seconds",
            ⟨some i, n, vm.OS_TYPE, some (tv vm.create_start_time - m), none⟩⟩]
        else [] := by
  cases hl : vm.isLinux <;>
    simp [vmBootSamples, List.filter_append, filter_iteSingleton, hl,
      List.filter_singleton]

/-! Extraction of the samples of one instance from the full output. -/

theorem filter_inst_of_uniform {l : List Sample} {i : ℕ} {name : String}
    (h : ∀ smp ∈ l, smp.metadata.machine_instance = some i) :
    l.filter (fun smp => decide (smp.metric = name ∧ smp.metadata.machine_instance = some i))
      = l.filter (fun smp => decide (smp.metric = name)) := by
  apply List.filter_congr
  intro smp hmem
  simp [h smp hmem]

theorem filter_inst_of_disjoint {l : List Sample} {i : ℕ} {name : String}
    (h : ∀ smp ∈ l, smp.metadata.machine_instance ≠ some i) :
    l.filter (fun smp => decide (smp.metric = name ∧ smp.metadata.machine_instance = some i))
      = [] := by
  rw [List.filter_eq_nil_iff]
  intro smp hmem
  simp [h smp hmem]

theorem filter_perInstance (fl : Flags) (m : ℚ) (n : ℕ) (name : String) :
    ∀ (ps : List (ℕ × Vm)) (i : ℕ) (vm : Vm), (i, vm) ∈ ps →
      (ps.map Prod.fst).Nodup →
      ((ps.flatMap fun p => vmBootSamples fl m n p.1 p.2).filter
          (fun smp => decide (smp.metric = name ∧ smp.metadata.machine_instance = some i)))
        = (vmBootSamples fl m n i vm).filter (fun smp => decide (smp.metric = name)) := by
  intro ps
  induction ps with
  | nil => intro i vm hmem _; cases hmem
  | cons p ps ih =>
    intro i vm hmem hnd
    rw [List.map_cons, List.nodup_cons] at hnd
    obtain ⟨hp1, hnd2⟩ := hnd
    rw [List.flatMap_cons, List.filter_append]
    rcases List.mem_cons.mp hmem with heq | hmem2
    · have hfst : p.1 = i := by rw [← heq]
      have hsnd : p.2 = vm := by rw [← heq]
      have htail : ((ps.flatMap fun q => vmBootSamples fl m n q.1 q.2).filter
          (fun smp => decide (smp.metric = name ∧ smp.metadata.machine_instance = some i)))
          = [] := by
        apply filter_inst_of_disjoint
        intro smp hsmp
        rcases List.mem_flatMap.mp hsmp with ⟨q, hq, hsmp2⟩
        have hmd := (mem_vmBootSamples hsmp2).1
        rw [hmd]
        intro hcontra
        simp only [Option.some.injEq] at hcontra
        apply hp1
        rw [← hfst] at hcontra
        rw [← hcontra]
        exact List.mem_map_of_mem Prod.fst hq
      rw [htail, List.append_nil, hfst, hsnd]
      apply filter_inst_of_uniform
      intro smp hsmp
      exact ((mem_vmBootSamples hsmp).1 ▸ rfl)
    · have hne : p.1 ≠ i := by
        intro hcontra
        apply hp1
        rw [hcontra]
        exact List.mem_map_of_mem Prod.fst hmem2
      have hhead : ((vmBootSamples fl m n p.1 p.2).filter
          (fun smp => decide (smp.metric = name ∧ smp.metadata.machine_instance = some i)))
          = [] := by
        apply filter_inst_of_disjoint
        intro smp hsmp
        rw [(mem_vmBootSamples hsmp).1]
        simp [hne]
      rw [hhead, List.nil_append]
      exact ih i vm hmem2 hnd2

theorem not_fatal_of_some {fl : Flags} {vms : List Vm} {s : List Sample}
    (hsome : GetTimeToBoot fl vms = some s) :
    ∀ vm ∈ vms, fatalVm fl vm = false := by
  intro vm hvm
  cases hf : fatalVm fl vm with
  | false => rfl
  | true =>
    have h0 : GetTimeToBoot fl vms = none :=
      (getTimeToBoot_none_char fl vms).mpr ⟨vm, hvm, hf⟩
    rw [hsome] at h0
    cases h0

theorem getTimeToBoot_eq_of_some {fl : Flags} {vms : List Vm} {s : List Sample}
    (hne : vms ≠ []) (hsome : GetTimeToBoot fl vms = some s) :
    s = perInstancePart fl (refTimeQ vms) vms.length vms
        ++ clusterPart fl (refTimeQ vms) vms := by
  have h := getTimeToBoot_decomp fl hne (not_fatal_of_some hsome)
  rw [hsome] at h
  exact Option.some.inj h

theorem mem_enum_of_lt {vms : List Vm} {i : ℕ} (hi : i < vms.length) :
    (i, vms.get ⟨i, hi⟩) ∈ vms.enum := by
  have hilen : i < vms.enum.length := by rw [List.enum_length]; exact hi
  have hget : vms.enum.get ⟨i, hilen⟩ = (i, vms.get ⟨i, hi⟩) := by
    simp [List.get_eq_getElem, List.getElem_enum]
  have hmem := List.get_mem vms.enum i hilen
  rw [hget] at hmem
  exact hmem

theorem getTimeToBoot_instValues {fl : Flags} {vms : List Vm} {s : List Sample}
    (hsome : GetTimeToBoot fl vms = some s) {i : ℕ} (hi : i < vms.length)
    (name : String) :
    instValues s i name
      = ((vmBootSamples fl (refTimeQ vms) vms.length i (vms.get ⟨i, hi⟩)).filter
          (fun smp => decide (smp.metric = name))).map Sample.value := by
  have hne : vms ≠ [] := by
    intro h0
    subst h0
    simp at hi
  have hdec := getTimeToBoot_eq_of_some hne hsome
  rw [instValues, hdec, List.filter_append]
  have hcl : ((clusterPart fl (refTimeQ vms) vms).filter
      (fun smp => decide (smp.metric = name ∧ smp.metadata.machine_instance = some i)))
      = [] := by
    apply filter_inst_of_disjoint
    intro smp hs
    rw [(mem_clusterPart hs).1]
    simp
  rw [hcl, List.append_nil, perInstancePart,
    filter_perInstance fl (refTimeQ vms) vms.length name vms.enum i (vms.get ⟨i, hi⟩)
      (mem_enum_of_lt hi) (List.nodup_enum_map_fst vms)]

/-! Counting lemmas for the sample groups. -/

theorem countMetric_append (a b : List Sample) (name : String) :
    countMetric (a ++ b) name = countMetric a name + countMetric b name := by
  simp [countMetric, List.filter_append]

theorem countMetric_eq_zero {l : List Sample} {name : String}
    (h : ∀ smp ∈ l, smp.metric ≠ name) : countMetric l name = 0 := by
  simp only [countMetric, List.length_eq_zero, List.filter_eq_nil_iff]
  intro smp hs
  simp [h smp hs]

theorem vmBootSamples_count_boot (fl : Flags) (m : ℚ) (n i : ℕ) (vm : Vm) :
    countMetric (vmBootSamples fl m n i vm) "Boot Time" = 1 := by
  rw [countMetric, vmBootSamples_filter_boot]
  rfl

theorem perInstancePart_count_boot (fl : Flags) (m : ℚ) (n : ℕ) :
    ∀ ps : List (ℕ × Vm),
      countMetric (ps.flatMap fun p => vmBootSamples fl m n p.1 p.2) "Boot Time"
        = ps.length := by
  intro ps
  induction ps with
  | nil => rfl
  | cons p ps ih =>
    rw [List.flatMap_cons, countMetric_append, ih, vmBootSamples_count_boot]
    simp [Nat.add_comm]

theorem perInstancePart_count_cluster (fl : Flags) (m : ℚ) (n : ℕ)
    (ps : List (ℕ × Vm)) :
    countMetric (ps.flatMap fun p => vmBootSamples fl m n p.1 p.2)
      "Cluster Boot Time" = 0 := by
  apply countMetric_eq_zero
  intro smp hs
  rcases List.mem_flatMap.mp hs with ⟨q, hq, hsmp⟩
  have hm := (mem_vmBootSamples hsmp).2
  intro hcontra
  rw [hcontra] at hm
  simp [metricOrder] at hm

theorem clusterPart_count_cluster_boot (fl : Flags) (m : ℚ) (vms : List Vm) :
    countMetric (clusterPart fl m vms) "Cluster Boot Time" = 1 := by
  cases hp : fl.cluster_boot_test_port_listening <;>
    cases hr : fl.cluster_boot_test_rdp_port_listening <;>
    simp [clusterPart, countMetric, hp, hr, List.filter_append]

theorem clusterPart_count_boot (fl : Flags) (m : ℚ) (vms : List Vm) :
    countMetric (clusterPart fl m vms) "Boot Time" = 0 := by
  apply countMetric_eq_zero
  intro smp hs
  have hm := (mem_clusterPart hs).2.2
  intro hcontra
  rw [hcontra] at hm
  simp [clusterMetricOrder] at hm

theorem foldl_max_zero_of_nonneg {l : List ℚ} (hne : l ≠ []) (h : ∀ x ∈ l, 0 ≤ x) :
    l.foldl max 0 = listMaxQ l := by
  cases l with
  | nil => exact absurd rfl hne
  | cons b t =>
    rw [foldl_max_cons]
    exact max_eq_right
      (le_trans (h b (List.mem_cons_self _ _)) (le_listMaxQ_of_mem (List.mem_cons_self _ _)))

theorem clusterPart_filter_cbt (fl : Flags) (m : ℚ) (vms : List Vm) :
    ((clusterPart fl m vms).filter
        (fun smp => decide (smp.metric = "Cluster Boot Time"))).map Sample.value
      = [maxBootOf m vms] := by
  cases hp : fl.cluster_boot_test_port_listening <;>
    cases hr : fl.cluster_boot_test_rdp_port_listening <;>
    simp [clusterPart, hp, hr, List.filter_append]

/-- C1: for a non-empty instance list in which every instance has
create_start_time and bootable_time set (truthy) and bootable_time is at least
create_start_time, the single Cluster Boot Time sample returned by
GetTimeToBoot has exactly the value max over instances of (bootable_time minus
the minimum create_start_time over all instances), with no rounding. -/
theorem cluster_boot_time_exact_max (fl : Flags) (vms : List Vm) (s : List Sample)
    (hne : vms ≠ [])
    (hts : ∀ vm ∈ vms, truthy vm.create_start_time = true
      ∧ truthy vm.bootable_time = true
      ∧ tv vm.create_start_time ≤ tv vm.bootable_time)
    (hsome : GetTimeToBoot fl vms = some s) :
    (s.filter (fun smp => decide (smp.metric = "Cluster Boot Time"))).map Sample.value
      = [listMaxQ (vms.map fun vm => tv vm.bootable_time - refTimeQ vms)] := by
  have hdec := getTimeToBoot_eq_of_some hne hsome
  rw [hdec, List.filter_append, List.map_append]
  have h1 : ((perInstancePart fl (refTimeQ vms) vms.length vms).filter
      (fun smp => decide (smp.metric = "Cluster Boot Time"))) = [] := by
    have h0 := perInstancePart_count_cluster fl (refTimeQ vms) vms.length vms.enum
    rw [countMetric] at h0
    rw [perInstancePart]
    exact List.length_eq_zero.mp h0
  rw [h1, List.map_nil, List.nil_append, clusterPart_filter_cbt]
  have hmapne : (vms.map fun vm => tv vm.bootable_time - refTimeQ vms) ≠ [] := by
    intro h0
    exact hne (List.map_eq_nil_iff.mp h0)
  have hnonneg : ∀ x ∈ (vms.map fun vm => tv vm.bootable_time - refTimeQ vms), 0 ≤ x := by
    intro x hx
    rcases List.mem_map.mp hx with ⟨vm, hvm, heq⟩
    subst heq
    have hcs := (hts vm hvm).2.2
    have hmin : refTimeQ vms ≤ tv vm.create_start_time :=
      listMinQ_le_of_mem (List.mem_map_of_mem (fun vm2 => tv vm2.create_start_time) hvm)
    linarith
  rw [maxBootOf, foldl_max_zero_of_nonneg hmapne hnonneg]

/-- Witness for C1 at a concrete input: two instances with create_start_times
100 and 101 and bootable_times 110 and 113; the Cluster Boot Time value is
max(110 - 100, 113 - 100) = 13. -/
theorem cluster_boot_time_exact_max_witness :
    ∃ s, GetTimeToBoot ⟨false, false⟩
        [⟨"linux", true, some 100, none, none, none, none, some 110, none, none, 0, 0⟩,
         ⟨"linux", true, some 101, none, none, none, none, some 113, none, none, 0, 0⟩]
        = some s
      ∧ (s.filter (fun smp => decide (smp.metric = "Cluster Boot Time"))).map Sample.value
          = [13] := by
  have hsome : ∃ s, GetTimeToBoot ⟨false, false⟩
      [⟨"linux", true, some 100, none, none, none, none, some 110, none, none, 0, 0⟩,
       ⟨"linux", true, some 101, none, none, none, none, some 113, none, none, 0, 0⟩]
      = some s := by
    refine ⟨_, rfl⟩
  obtain ⟨s, hs⟩ := hsome
  refine ⟨s, hs, ?_⟩
  have h := cluster_boot_time_exact_max ⟨false, false⟩
    [⟨"linux", true, some 100, none, none, none, none, some 110, none, none, 0, 0⟩,
     ⟨"linux", true, some 101, none, none, none, none, some 113, none, none, 0, 0⟩]
    s (by simp)
    (by
      intro vm hvm
      rcases List.mem_cons.mp hvm with h0 | h0
      · subst h0; refine ⟨by norm_num [truthy], by norm_num [truthy], by norm_num [tv]⟩
      · rcases List.mem_cons.mp h0 with h1 | h1
        · subst h1; refine ⟨by norm_num [truthy], by norm_num [truthy], by norm_num [tv]⟩
        · cases h1)
    hs
  rw [h]
  norm_num [refTimeQ, listMinQ, listMaxQ, tv]

/-- C2 (counterexample): an instance whose create_return_time, is_running_time,
ssh_internal_time and ssh_external_time are all set but smaller than its
create_start_time does not make GetTimeToBoot abort: the call returns samples,
and the out-of-order Time to Running sample is emitted (with a negative value)
rather than the instance being rejected. -/
theorem order_violation_not_fatal :
    GetTimeToBoot ⟨false, false⟩
        [⟨"debian", true, some 10, some 4, some 5, some 6, some 7, some 20,
          none, none, 0, 0⟩] ≠ none
      ∧ countMetric ((GetTimeToBoot ⟨false, false⟩
          [⟨"debian", true, some 10, some 4, some 5, some 6, some 7, some 20,
            none, none, 0, 0⟩]).getD []) "Time to Running" = 1 := by
  have heval : GetTimeToBoot ⟨false, false⟩
      [⟨"debian", true, some 10, some 4, some 5, some 6, some 7, some 20,
        none, none, 0, 0⟩]
      = some
        [⟨"Time to Create Async Return", -6, "seconds", ⟨some 0, 1, "debian", some 0, none⟩⟩,
         ⟨"Time to Running", -5, "seconds", ⟨some 0, 1, "debian", some 0, none⟩⟩,
         ⟨"Time to SSH - External", -3, "seconds", ⟨some 0, 1, "debian", some 0, none⟩⟩,
         ⟨"Time to SSH - Internal", -4, "seconds", ⟨some 0, 1, "debian", some 0, none⟩⟩,
         ⟨"Boot Time", 10, "seconds", ⟨some 0, 1, "debian", some 0, none⟩⟩,
         ⟨"Cluster Boot Time", 10, "seconds", ⟨none, 1, "debian", none, some 0⟩⟩] := by
    norm_num [GetTimeToBoot, bootLoop, bootVmStep, vmBootSamples, pyMin, truthy, tv,
      sortStrings, sortIns, setAdd, String.intercalate, String.intercalate.go]
  constructor
  · rw [heval]
    simp
  · rw [heval]
    simp [countMetric, List.filter]

/-- C2 (amended): GetTimeToBoot aborts fatally exactly when some instance fails
one of the five checked asserts (create_start_time falsy, bootable_time falsy,
bootable_time below create_start_time, or, under the corresponding flag, a
port listening timestamp falsy or below create_start_time); an out-of-order
create_return_time, is_running_time, ssh_internal_time or ssh_external_time is
not checked and does not abort the call. -/
theorem fatal_abort_iff_checked_assert (fl : Flags) (vms : List Vm) :
    GetTimeToBoot fl vms = none ↔ ∃ vm ∈ vms, fatalVm fl vm = true :=
  getTimeToBoot_none_char fl vms

/-- C3: under the checked preconditions GetTimeToBoot returns exactly one Boot
Time sample per instance and exactly one Cluster Boot Time sample for a
non-empty list, and the empty sample list (not an error) for the empty list. -/
theorem boot_sample_counts (fl : Flags) (vms : List Vm)
    (hok : ∀ vm ∈ vms, fatalVm fl vm = false) :
    ∃ s, GetTimeToBoot fl vms = some s
      ∧ (vms = [] → s = [])
      ∧ (vms ≠ [] → countMetric s "Boot Time" = vms.length
          ∧ countMetric s "Cluster Boot Time" = 1) := by
  by_cases hne : vms = []
  · subst hne
    exact ⟨[], rfl, fun _ => rfl, fun h => absurd rfl h⟩
  · have hdec := getTimeToBoot_decomp fl hne hok
    refine ⟨_, hdec, fun h => absurd h hne, fun _ => ⟨?_, ?_⟩⟩
    · rw [countMetric_append, clusterPart_count_boot, Nat.add_zero, perInstancePart]
      rw [perInstancePart_count_boot fl (refTimeQ vms) vms.length vms.enum]
      exact List.enum_length
    · rw [countMetric_append, clusterPart_count_cluster_boot, perInstancePart]
      rw [perInstancePart_count_cluster fl (refTimeQ vms) vms.length vms.enum]

/-- Witness for C3 at a concrete input: two instances, flags off; the output
has two Boot Time samples and one Cluster Boot Time sample. -/
theorem boot_sample_counts_witness :
    ∃ s, GetTimeToBoot ⟨false, false⟩
        [⟨"linux", true, some 1, none, none, none, none, some 3, none, none, 0, 0⟩,
         ⟨"windows", false, some 2, none, none, none, none, some 5, none, none, 0, 0⟩]
        = some s
      ∧ countMetric s "Boot Time" = 2
      ∧ countMetric s "Cluster Boot Time" = 1 := by
  have h := boot_sample_counts ⟨false, false⟩
    [⟨"linux", true, some 1, none, none, none, none, some 3, none, none, 0, 0⟩,
     ⟨"windows", false, some 2, none, none, none, none, some 5, none, none, 0, 0⟩]
    (by
      intro vm hvm
      rcases List.mem_cons.mp hvm with h0 | h0
      · subst h0; norm_num [fatalVm, truthy, tv]
      · rcases List.mem_cons.mp h0 with h1 | h1
        · subst h1; norm_num [fatalVm, truthy, tv]
        · cases h1)
  obtain ⟨s, hs, _, himp⟩ := h
  have hcounts := himp (by simp)
  exact ⟨s, hs, hcounts.1, hcounts.2⟩

/-- C4: the Time to Running value is computed against the instance's own
create_start_time, so two instances with equal (is_running_time -
create_start_time) get identical Time to Running values even when their
create_start_times (hence create_delays) differ. -/
theorem time_to_running_instance_relative (fl : Flags) (vms : List Vm)
    (s : List Sample) (i j : ℕ) (hi : i < vms.length) (hj : j < vms.length)
    (hsome : GetTimeToBoot fl vms = some s)
    (hri : truthy (vms.get ⟨i, hi⟩).is_running_time = true)
    (hrj : truthy (vms.get ⟨j, hj⟩).is_running_time = true)
    (heq : tv (vms.get ⟨i, hi⟩).is_running_time - tv (vms.get ⟨i, hi⟩).create_start_time
         = tv (vms.get ⟨j, hj⟩).is_running_time - tv (vms.get ⟨j, hj⟩).create_start_time) :
    instValues s i "Time to Running" = instValues s j "Time to Running"
      ∧ instValues s i "Time to Running"
          = [tv (vms.get ⟨i, hi⟩).is_running_time
              - tv (vms.get ⟨i, hi⟩).create_start_time] := by
  have h1 := getTimeToBoot_instValues hsome hi "Time to Running"
  have h2 := getTimeToBoot_instValues hsome hj "Time to Running"
  rw [vmBootSamples_filter_running, if_pos hri] at h1
  rw [vmBootSamples_filter_running, if_pos hrj] at h2
  rw [h1, h2]
  refine ⟨?_, rfl⟩
  simp only [List.map_singleton]
  rw [heq]

/-- Witness for C4 at a concrete input: create_start_times 10 and 20, equal
instance-relative running delays 5; both Time to Running values are 5. -/
theorem time_to_running_instance_relative_witness :
    ∃ s, GetTimeToBoot ⟨false, false⟩
        [⟨"linux", true, some 10, none, some 15, none, none, some 30, none, none, 0, 0⟩,
         ⟨"linux", true, some 20, none, some 25, none, none, some 40, none, none, 0, 0⟩]
        = some s
      ∧ instValues s 0 "Time to Running" = instValues s 1 "Time to Running"
      ∧ instValues s 0 "Time to Running" = [5] := by
  have heval : GetTimeToBoot ⟨false, false⟩
      [⟨"linux", true, some 10, none, some 15, none, none, some 30, none, none, 0, 0⟩,
       ⟨"linux", true, some 20, none, some 25, none, none, some 40, none, none, 0, 0⟩]
      = some
        [⟨"Time to Running", 5, "seconds", ⟨some 0, 2, "linux", some 0, none⟩⟩,
         ⟨"Boot Time", 20, "seconds", ⟨some 0, 2, "linux", some 0, none⟩⟩,
         ⟨"Time to Running", 5, "seconds", ⟨some 1, 2, "linux", some 10, none⟩⟩,
         ⟨"Boot Time", 30, "seconds", ⟨some 1, 2, "linux", some 10, none⟩⟩,
         ⟨"Cluster Boot Time", 30, "seconds", ⟨none, 2, "linux", none, some 10⟩⟩] := by
    norm_num [GetTimeToBoot, bootLoop, bootVmStep, vmBootSamples, pyMin, optMin2,
      truthy, tv, sortStrings, sortIns, setAdd, String.intercalate, String.intercalate.go]
  have h := time_to_running_instance_relative ⟨false, false⟩
    [⟨"linux", true, some 10, none, some 15, none, none, some 30, none, none, 0, 0⟩,
     ⟨"linux", true, some 20, none, some 25, none, none, some 40, none, none, 0, 0⟩]
    _ 0 1 (by norm_num) (by norm_num) heval
    (by norm_num [truthy, tv]) (by norm_num [truthy, tv]) (by norm_num [truthy, tv])
  refine ⟨_, heval, h.1, ?_⟩
  rw [h.2]
  norm_num [tv]

/-- C5: when the port listening flag is on, every instance gets a Port
Listening Time sample of value port_listening_time minus the reference time,
and a falsy or out-of-order port_listening_time on any instance makes the
whole call fail with no samples; when the flag is off no Port Listening Time
sample is emitted. -/
theorem port_listening_gating (fl : Flags) (vms : List Vm) :
    (∀ (s : List Sample) (i : ℕ) (hi : i < vms.length),
        fl.cluster_boot_test_port_listening = true →
        GetTimeToBoot fl vms = some s →
        instValues s i "Port Listening Time"
          = [tv (vms.get ⟨i, hi⟩).port_listening_time - refTimeQ vms])
    ∧ (fl.cluster_boot_test_port_listening = true →
        (∃ vm ∈ vms, truthy vm.port_listening_time = false
          ∨ tv vm.port_listening_time < tv vm.create_start_time) →
        GetTimeToBoot fl vms = none)
    ∧ (fl.cluster_boot_test_port_listening = false →
        ∀ s : List Sample, GetTimeToBoot fl vms = some s →
        ∀ smp ∈ s, smp.metric ≠ "Port Listening Time") := by
  refine ⟨?_, ?_, ?_⟩
  · intro s i hi hp hsome
    have h1 := getTimeToBoot_instValues hsome hi "Port Listening Time"
    rw [vmBootSamples_filter_port, if_pos hp] at h1
    rw [h1]
    rfl
  · intro hp hbad
    rcases hbad with ⟨vm, hvm, hbad⟩
    apply (getTimeToBoot_none_char fl vms).mpr
    refine ⟨vm, hvm, ?_⟩
    rcases hbad with hbad | hbad
    · simp [fatalVm, hp, hbad]
    · simp [fatalVm, hp, hbad]
  · intro hp s hsome smp hsmp hcontra
    have hne : vms ≠ [] := by
      intro h0
      subst h0
      simp [GetTimeToBoot] at hsome
      subst hsome
      cases hsmp
    rw [getTimeToBoot_eq_of_some hne hsome] at hsmp
    rcases List.mem_append.mp hsmp with hsmp | hsmp
    · rcases List.mem_flatMap.mp hsmp with ⟨q, hq, hsmp2⟩
      have hmm := List.mem_map_of_mem Sample.metric hsmp2
      rw [vmBootSamples_metrics] at hmm
      have hem := List.of_mem_filter hmm
      rw [hcontra] at hem
      simp [emits, hp] at hem
    · have hcl := (mem_clusterPart hsmp).2.2
      rw [hcontra] at hcl
      simp [clusterMetricOrder] at hcl

/-- Witness for C5 at concrete inputs: with the flag on, an instance with
port_listening_time 15 and reference time 10 gets the sample value 5; with
the flag on and a missing port_listening_time the call returns none; with the
flag off no Port Listening Time sample appears. -/
theorem port_listening_gating_witness :
    (∃ s, GetTimeToBoot ⟨true, false⟩
        [⟨"linux", true, some 10, none, none, none, none, some 20, some 15, none, 0, 0⟩]
        = some s ∧ instValues s 0 "Port Listening Time" = [5])
    ∧ GetTimeToBoot ⟨true, false⟩
        [⟨"linux", true, some 10, none, none, none, none, some 20, none, none, 0, 0⟩]
        = none
    ∧ (∃ s, GetTimeToBoot ⟨false, false⟩
        [⟨"linux", true, some 10, none, none, none, none, some 20, some 15, none, 0, 0⟩]
        = some s ∧ ∀ smp ∈ s, smp.metric ≠ "Port Listening Time") := by
  have heval1 : GetTimeToBoot ⟨true, false⟩
      [⟨"linux", true, some 10, none, none, none, none, some 20, some 15, none, 0, 0⟩]
      = some
        [⟨"Boot Time", 10, "seconds", ⟨some 0, 1, "linux", some 0, none⟩⟩,
         ⟨"Port Listening Time", 5, "seconds", ⟨some 0, 1, "linux", some 0, none⟩⟩,
         ⟨"Cluster Boot Time", 10, "seconds", ⟨none, 1, "linux", none, some 0⟩⟩,
         ⟨"Cluster Port Listening Time", 5, "seconds", ⟨none, 1, "linux", none, some 0⟩⟩] := by
    norm_num [GetTimeToBoot, bootLoop, bootVmStep, vmBootSamples, pyMin, optMin2,
      truthy, tv, sortStrings, sortIns, setAdd, String.intercalate, String.intercalate.go]
  have heval2 : GetTimeToBoot ⟨false, false⟩
      [⟨"linux", true, some 10, none, none, none, none, some 20, some 15, none, 0, 0⟩]
      = some
        [⟨"Boot Time", 10, "seconds", ⟨some 0, 1, "linux", some 0, none⟩⟩,
         ⟨"Cluster Boot Time", 10, "seconds", ⟨none, 1, "linux", none, some 0⟩⟩] := by
    norm_num [GetTimeToBoot, bootLoop, bootVmStep, vmBootSamples, pyMin, optMin2,
      truthy, tv, sortStrings, sortIns, setAdd, String.intercalate, String.intercalate.go]
  refine ⟨⟨_, heval1, ?_⟩, ?_, ⟨_, heval2, ?_⟩⟩
  · have h := (port_listening_gating ⟨true, false⟩
      [⟨"linux", true, some 10, none, none, none, none, some 20, some 15, none, 0, 0⟩]).1
      _ 0 (by norm_num) rfl heval1
    rw [h]
    norm_num [tv, refTimeQ, listMinQ]
  · exact (port_listening_gating ⟨true, false⟩
      [⟨"linux", true, some 10, none, none, none, none, some 20, none, none, 0, 0⟩]).2.1
      rfl ⟨_, List.mem_cons_self _ _, Or.inl rfl⟩
  · exact (port_listening_gating ⟨false, false⟩
      [⟨"linux", true, some 10, none, none, none, none, some 20, some 15, none, 0, 0⟩]).2.2
      rfl _ heval2

theorem opSamples_values (ts : List ℚ) (ct : ℚ) (op : String) (vms : List Vm)
    (hlen : ts.length = vms.length)
    (hne : ("Cluster " ++ op ++ " Time") ≠ (op ++ " Time")) :
    (((GetVmOperationDataSamples ts ct op vms).filter
        (fun smp => decide (smp.metric = op ++ " Time"))).map Sample.value = ts)
    ∧ (((GetVmOperationDataSamples ts ct op vms).filter
        (fun smp => decide (smp.metric = "Cluster " ++ op ++ " Time"))).map Sample.value
      = [ct]) := by
  have hne2 : (op ++ " Time") ≠ ("Cluster " ++ op ++ " Time") := fun h => hne h.symm
  have h1 : ∀ l : List (ℚ × Metadata),
      (((l.map fun q => (⟨op ++ " Time", q.1, "seconds", q.2⟩ : Sample)).filter
          (fun smp => decide (smp.metric = op ++ " Time"))).map Sample.value)
        = l.map Prod.fst := by
    intro l
    induction l with
    | nil => rfl
    | cons q t ih => simp [ih]
  have h2 : ∀ l : List (ℚ × Metadata),
      ((l.map fun q => (⟨op ++ " Time", q.1, "seconds", q.2⟩ : Sample)).filter
          (fun smp => decide (smp.metric = "Cluster " ++ op ++ " Time"))) = [] := by
    intro l
    induction l with
    | nil => rfl
    | cons q t ih => simp [ih, hne2]
  have hlen2 : ts.length
      ≤ (vms.enum.map fun p =>
          (⟨some p.1, vms.length, p.2.OS_TYPE, none, none⟩ : Metadata)).length := by
    rw [List.length_map, List.enum_length, hlen]
  constructor
  · simp only [GetVmOperationDataSamples, List.filter_append, List.map_append]
    rw [h1, List.map_fst_zip ts _ hlen2]
    simp [hne]
  · simp only [GetVmOperationDataSamples, List.filter_append, List.map_append]
    rw [h2]
    simp

/-- C6: for a non-empty instance list, each per-instance Delete Time sample is
delete_end_time minus delete_start_time of that instance, and the single
Cluster Delete Time sample is max(delete_end_time) minus the wall clock time
recorded before the fan-out. -/
theorem measure_delete_times (t0 : ℚ) (vms : List Vm) (hne : vms ≠ []) :
    ∃ s, MeasureDelete t0 vms = some s
      ∧ (s.filter (fun smp => decide (smp.metric = "Delete Time"))).map Sample.value
          = vms.map (fun vm => vm.delete_end_time - vm.delete_start_time)
      ∧ (s.filter (fun smp =>
            decide (smp.metric = "Cluster Delete Time"))).map Sample.value
          = [listMaxQ (vms.map Vm.delete_end_time) - t0] := by
  have hie : vms.isEmpty = false := by
    cases vms with
    | nil => exact absurd rfl hne
    | cons a t => rfl
  have hsome : MeasureDelete t0 vms
      = some (GetVmOperationDataSamples
          (vms.map fun vm => vm.delete_end_time - vm.delete_start_time)
          (listMaxQ (vms.map Vm.delete_end_time) - t0) "Delete" vms) := by
    rw [MeasureDelete, hie]
    rfl
  have hop := opSamples_values
    (vms.map fun vm => vm.delete_end_time - vm.delete_start_time)
    (listMaxQ (vms.map Vm.delete_end_time) - t0) "Delete" vms
    (by rw [List.length_map]) (by simp)
  have hD : ("Delete" ++ " Time" : String) = "Delete Time" := by simp
  have hCD : ("Cluster " ++ "Delete" ++ " Time" : String) = "Cluster Delete Time" := by simp
  rw [hD, hCD] at hop
  exact ⟨_, hsome, hop.1, hop.2⟩

/-- C7: each per-instance Reboot Time sample carries the self measured reboot
duration reported by the task, while the single Cluster Reboot Time sample is
the wall clock span of the fan-out (second time.time() reading minus the
first), not an aggregate of the per-instance durations. -/
theorem measure_reboot_times (t0 t1 : ℚ) (reboot_times : List ℚ) (vms : List Vm)
    (hlen : reboot_times.length = vms.length) :
    (((MeasureReboot t0 t1 reboot_times vms).filter
        (fun smp => decide (smp.metric = "Reboot Time"))).map Sample.value
      = reboot_times)
    ∧ (((MeasureReboot t0 t1 reboot_times vms).filter
        (fun smp => decide (smp.metric = "Cluster Reboot Time"))).map Sample.value
      = [t1 - t0]) := by
  have hop := opSamples_values reboot_times (t1 - t0) "Reboot" vms hlen (by simp)
  have hD : ("Reboot" ++ " Time" : String) = "Reboot Time" := by simp
  have hCD : ("Cluster " ++ "Reboot" ++ " Time" : String) = "Cluster Reboot Time" := by simp
  rw [hD, hCD] at hop
  exact ⟨hop.1, hop.2⟩

/-- Witness for C6 at the concrete scenario: t0 = 0, instance A with
delete_start 0 and delete_end 6, instance B with delete_start 1 and
delete_end 9; per-instance durations [6, 8] and Cluster Delete Time 9. -/
theorem measure_delete_times_witness :
    ∃ s, MeasureDelete 0
        [⟨"linux", true, none, none, none, none, none, none, none, none, 0, 6⟩,
         ⟨"linux", true, none, none, none, none, none, none, none, none, 1, 9⟩]
        = some s
      ∧ (s.filter (fun smp => decide (smp.metric = "Delete Time"))).map Sample.value
          = [6, 8]
      ∧ (s.filter (fun smp =>
            decide (smp.metric = "Cluster Delete Time"))).map Sample.value = [9] := by
  obtain ⟨s, hs, h1, h2⟩ := measure_delete_times 0
    [⟨"linux", true, none, none, none, none, none, none, none, none, 0, 6⟩,
     ⟨"linux", true, none, none, none, none, none, none, none, none, 1, 9⟩]
    (by simp)
  refine ⟨s, hs, ?_, ?_⟩
  · rw [h1]
    norm_num
  · rw [h2]
    norm_num [listMaxQ]

/-- Witness for C7 at the concrete scenario: self reported reboot durations 5
and 7 with a fan-out wall clock span of 8 seconds; the per-instance samples
are [5, 7] and the Cluster Reboot Time is 8, which differs from the maximum
self reported duration 7. -/
theorem measure_reboot_times_witness :
    (((MeasureReboot 0 8 [5, 7]
        [⟨"linux", true, none, none, none, none, none, none, none, none, 0, 0⟩,
         ⟨"linux", true, none, none, none, none, none, none, none, none, 0, 0⟩]).filter
        (fun smp => decide (smp.metric = "Reboot Time"))).map Sample.value = [5, 7])
    ∧ (((MeasureReboot 0 8 [5, 7]
        [⟨"linux", true, none, none, none, none, none, none, none, none, 0, 0⟩,
         ⟨"linux", true, none, none, none, none, none, none, none, none, 0, 0⟩]).filter
        (fun smp => decide (smp.metric = "Cluster Reboot Time"))).map Sample.value = [8])
    ∧ (8 : ℚ) ≠ listMaxQ [5, 7] := by
  obtain ⟨h1, h2⟩ := measure_reboot_times 0 8 [5, 7]
    [⟨"linux", true, none, none, none, none, none, none, none, none, 0, 0⟩,
     ⟨"linux", true, none, none, none, none, none, none, none, none, 0, 0⟩]
    (by simp)
  refine ⟨h1, ?_, ?_⟩
  · rw [h2]
    norm_num
  · norm_num [listMaxQ]

/-- C8: the reference time of GetTimeToBoot is the minimum create_start_time
over the instances; every create_delay (create_start_time minus reference
time) is nonnegative, at least one instance has create_delay zero, and the
same holds for the create_delay_sec metadata attached to the emitted
samples. -/
theorem reference_time_min_create (fl : Flags) (vms : List Vm) (s : List Sample)
    (hne : vms ≠ []) (hsome : GetTimeToBoot fl vms = some s) :
    pyMin (vms.map Vm.create_start_time) = some (refTimeQ vms)
    ∧ (∀ vm ∈ vms, 0 ≤ tv vm.create_start_time - refTimeQ vms)
    ∧ (∃ vm ∈ vms, tv vm.create_start_time - refTimeQ vms = 0)
    ∧ (∀ smp ∈ s, ∀ d : ℚ, smp.metadata.create_delay_sec = some d → 0 ≤ d)
    ∧ (∃ smp ∈ s, smp.metadata.create_delay_sec = some 0) := by
  have hok := not_fatal_of_some hsome
  have hmapne : vms.map Vm.create_start_time ≠ [] := by
    intro h2
    exact hne (List.map_eq_nil_iff.mp h2)
  have hmapne2 : (vms.map fun vm => tv vm.create_start_time) ≠ [] := by
    intro h2
    exact hne (List.map_eq_nil_iff.mp h2)
  have hs2 : ∀ o ∈ vms.map Vm.create_start_time, o ≠ none := by
    intro o ho hnone
    rcases List.mem_map.mp ho with ⟨vm, hvm, heq⟩
    subst hnone
    have h2 := hok vm hvm
    rw [fatalVm_of_cst_none heq] at h2
    cases h2
  have hpy : pyMin (vms.map Vm.create_start_time) = some (refTimeQ vms) := by
    rw [pyMin_of_all_some hmapne hs2, refTimeQ, List.map_map]
    rfl
  have hdelay : ∀ vm ∈ vms, 0 ≤ tv vm.create_start_time - refTimeQ vms := by
    intro vm hvm
    have hmin : refTimeQ vms ≤ tv vm.create_start_time :=
      listMinQ_le_of_mem (List.mem_map_of_mem (fun vm2 => tv vm2.create_start_time) hvm)
    linarith
  have hzero : ∃ vm ∈ vms, tv vm.create_start_time - refTimeQ vms = 0 := by
    rcases List.mem_map.mp (listMinQ_mem hmapne2) with ⟨vm, hvm, heq⟩
    refine ⟨vm, hvm, ?_⟩
    rw [refTimeQ]
    exact sub_eq_zero_of_eq heq
  have hdec := getTimeToBoot_eq_of_some hne hsome
  refine ⟨hpy, hdelay, hzero, ?_, ?_⟩
  · intro smp hsmp d hd
    rw [hdec] at hsmp
    rcases List.mem_append.mp hsmp with hsmp | hsmp
    · rcases List.mem_flatMap.mp hsmp with ⟨q, hq, hsmp2⟩
      have hmd := (mem_vmBootSamples hsmp2).1
      rw [hmd] at hd
      simp only [Option.some.injEq] at hd
      have hqmem : q.2 ∈ vms := by
        have h3 := List.mem_map_of_mem Prod.snd hq
        rw [List.enum_map_snd] at h3
        exact h3
      rw [← hd]
      exact hdelay q.2 hqmem
    · have hmd := (mem_clusterPart hsmp).2.1
      rw [hmd] at hd
      cases hd
  · rcases hzero with ⟨vm, hvm, hvz⟩
    rcases List.mem_iff_get.mp hvm with ⟨⟨i, hi⟩, hget⟩
    refine ⟨⟨"Boot Time", tv vm.bootable_time - refTimeQ vms, "seconds",
      ⟨some i, vms.length, vm.OS_TYPE,
       some (tv vm.create_start_time - refTimeQ vms), none⟩⟩, ?_, ?_⟩
    · rw [hdec]
      apply List.mem_append_left
      rw [perInstancePart]
      apply List.mem_flatMap.mpr
      refine ⟨(i, vm), ?_, ?_⟩
      · have hmem := mem_enum_of_lt hi
        rw [hget] at hmem
        exact hmem
      · exact boot_mem_vmBootSamples fl (refTimeQ vms) vms.length i vm
    · simp [hvz]

/-- Witness for C8 at a concrete input: create_start_times 100, 101, 103; the
reference time is 100 and the first instance has create_delay 0. -/
theorem reference_time_min_create_witness :
    ∃ s, GetTimeToBoot ⟨false, false⟩
        [⟨"linux", true, some 100, none, none, none, none, some 110, none, none, 0, 0⟩,
         ⟨"linux", true, some 101, none, none, none, none, some 113, none, none, 0, 0⟩,
         ⟨"linux", true, some 103, none, none, none, none, some 115, none, none, 0, 0⟩]
        = some s
      ∧ pyMin (([⟨"linux", true, some 100, none, none, none, none, some 110, none, none, 0, 0⟩,
          ⟨"linux", true, some 101, none, none, none, none, some 113, none, none, 0, 0⟩,
          ⟨"linux", true, some 103, none, none, none, none, some 115, none, none, 0, 0⟩]
            : List Vm).map Vm.create_start_time) = some 100
      ∧ (∃ smp ∈ s, smp.metadata.create_delay_sec = some 0) := by
  have heval : GetTimeToBoot ⟨false, false⟩
      [⟨"linux", true, some 100, none, none, none, none, some 110, none, none, 0, 0⟩,
       ⟨"linux", true, some 101, none, none, none, none, some 113, none, none, 0, 0⟩,
       ⟨"linux", true, some 103, none, none, none, none, some 115, none, none, 0, 0⟩]
      = some
        [⟨"Boot Time", 10, "seconds", ⟨some 0, 3, "linux", some 0, none⟩⟩,
         ⟨"Boot Time", 13, "seconds", ⟨some 1, 3, "linux", some 1, none⟩⟩,
         ⟨"Boot Time", 15, "seconds", ⟨some 2, 3, "linux", some 3, none⟩⟩,
         ⟨"Cluster Boot Time", 15, "seconds", ⟨none, 3, "linux", none, some 3⟩⟩] := by
    norm_num [GetTimeToBoot, bootLoop, bootVmStep, vmBootSamples, pyMin, optMin2,
      truthy, tv, sortStrings, sortIns, setAdd, String.intercalate, String.intercalate.go]
  obtain ⟨hpy, _, _, _, hex⟩ := reference_time_min_create ⟨false, false⟩
    [⟨"linux", true, some 100, none, none, none, none, some 110, none, none, 0, 0⟩,
     ⟨"linux", true, some 101, none, none, none, none, some 113, none, none, 0, 0⟩,
     ⟨"linux", true, some 103, none, none, none, none, some 115, none, none, 0, 0⟩]
    _ (by simp) heval
  refine ⟨_, heval, ?_, hex⟩
  rw [hpy]
  norm_num [refTimeQ, listMinQ, tv]

/-- C9: the output of GetTimeToBoot is exactly the per-instance groups in
input order followed by the cluster samples; within a group the metrics
appear in the fixed order (Time to Create Async Return, Time to Running,
Time to SSH - External, Time to SSH - Internal, Boot Time, Port Listening
Time, RDP Port Listening Time) restricted to those emitted; cluster samples
carry no machine_instance and come after every per-instance sample. -/
theorem emission_order (fl : Flags) (vms : List Vm) (s : List Sample)
    (hne : vms ≠ []) (hsome : GetTimeToBoot fl vms = some s) :
    s = perInstancePart fl (refTimeQ vms) vms.length vms
        ++ clusterPart fl (refTimeQ vms) vms
    ∧ (∀ (i : ℕ) (vm : Vm), (i, vm) ∈ vms.enum →
        (vmBootSamples fl (refTimeQ vms) vms.length i vm).map Sample.metric
          = metricOrder.filter (emits fl vm))
    ∧ (∀ smp ∈ perInstancePart fl (refTimeQ vms) vms.length vms,
        smp.metadata.machine_instance ≠ none)
    ∧ (∀ smp ∈ clusterPart fl (refTimeQ vms) vms,
        smp.metadata.machine_instance = none ∧ smp.metric ∈ clusterMetricOrder) := by
  refine ⟨getTimeToBoot_eq_of_some hne hsome, ?_, ?_, ?_⟩
  · intro i vm _
    exact vmBootSamples_metrics fl (refTimeQ vms) vms.length i vm
  · intro smp hsmp
    rw [perInstancePart] at hsmp
    rcases List.mem_flatMap.mp hsmp with ⟨q, _, h2⟩
    rw [(mem_vmBootSamples h2).1]
    simp
  · intro smp hsmp
    exact ⟨(mem_clusterPart hsmp).1, (mem_clusterPart hsmp).2.2⟩

/-- Witness for C9 at a concrete input: one Linux instance with every optional
timestamp set emits, in order, Time to Create Async Return, Time to Running,
Time to SSH - External, Time to SSH - Internal, Boot Time. -/
theorem emission_order_witness :
    (∃ s, GetTimeToBoot ⟨false, false⟩
        [⟨"linux", true, some 10, some 11, some 12, some 13, some 14, some 20,
          none, none, 0, 0⟩] = some s
      ∧ s = perInstancePart ⟨false, false⟩
            (refTimeQ [⟨"linux", true, some 10, some 11, some 12, some 13, some 14,
              some 20, none, none, 0, 0⟩]) 1
            [⟨"linux", true, some 10, some 11, some 12, some 13, some 14, some 20,
              none, none, 0, 0⟩]
          ++ clusterPart ⟨false, false⟩
            (refTimeQ [⟨"linux", true, some 10, some 11, some 12, some 13, some 14,
              some 20, none, none, 0, 0⟩])
            [⟨"linux", true, some 10, some 11, some 12, some 13, some 14, some 20,
              none, none, 0, 0⟩])
    ∧ (vmBootSamples ⟨false, false⟩
        (refTimeQ [⟨"linux", true, some 10, some 11, some 12, some 13, some 14,
          some 20, none, none, 0, 0⟩]) 1 0
        ⟨"linux", true, some 10, some 11, some 12, some 13, some 14, some 20,
          none, none, 0, 0⟩).map Sample.metric
      = ["Time to Create Async Return", "Time to Running", "Time to SSH - External",
         "Time to SSH - Internal", "Boot Time"] := by
  have hs : GetTimeToBoot ⟨false, false⟩
      [⟨"linux", true, some 10, some 11, some 12, some 13, some 14, some 20,
        none, none, 0, 0⟩]
      = some
        [⟨"Time to Create Async Return", 1, "seconds", ⟨some 0, 1, "linux", some 0, none⟩⟩,
         ⟨"Time to Running", 2, "seconds", ⟨some 0, 1, "linux", some 0, none⟩⟩,
         ⟨"Time to SSH - External", 4, "seconds", ⟨some 0, 1, "linux", some 0, none⟩⟩,
         ⟨"Time to SSH - Internal", 3, "seconds", ⟨some 0, 1, "linux", some 0, none⟩⟩,
         ⟨"Boot Time", 10, "seconds", ⟨some 0, 1, "linux", some 0, none⟩⟩,
         ⟨"Cluster Boot Time", 10, "seconds", ⟨none, 1, "linux", none, some 0⟩⟩] := by
    norm_num [GetTimeToBoot, bootLoop, bootVmStep, vmBootSamples, pyMin, truthy, tv,
      sortStrings, sortIns, setAdd, String.intercalate, String.intercalate.go]
  have h := emission_order ⟨false, false⟩
    [⟨"linux", true, some 10, some 11, some 12, some 13, some 14, some 20,
      none, none, 0, 0⟩] _ (by simp) hs
  refine ⟨⟨_, hs, h.1⟩, ?_⟩
  have h2 := h.2.1 0
    ⟨"linux", true, some 10, some 11, some 12, some 13, some 14, some 20,
      none, none, 0, 0⟩ (by simp [List.enum, List.enumFrom])
  have h3 : metricOrder.filter
      (emits ⟨false, false⟩
        ⟨"linux", true, some 10, some 11, some 12, some 13, some 14, some 20,
          none, none, 0, 0⟩)
      = ["Time to Create Async Return", "Time to Running", "Time to SSH - External",
         "Time to SSH - Internal", "Boot Time"] := by
    norm_num [metricOrder, emits, truthy, List.filter]
    rfl
  exact h2.trans h3

/-- C10: presence of a timestamp is decided by Python truthiness: an optional
timestamp equal to 0 is treated as absent (its sample is silently not
emitted), and a required timestamp equal to 0 triggers the fatal precondition
failure even though it is set. -/
theorem truthiness_decides_presence (fl : Flags) (vms : List Vm) :
    (∀ (s : List Sample) (i : ℕ) (hi : i < vms.length),
      GetTimeToBoot fl vms = some s →
      ((vms.get ⟨i, hi⟩).create_return_time = some 0 →
          instValues s i "Time to Create Async Return" = [])
      ∧ ((vms.get ⟨i, hi⟩).is_running_time = some 0 →
          instValues s i "Time to Running" = [])
      ∧ ((vms.get ⟨i, hi⟩).ssh_external_time = some 0 →
          instValues s i "Time to SSH - External" = [])
      ∧ ((vms.get ⟨i, hi⟩).ssh_internal_time = some 0 →
          instValues s i "Time to SSH - Internal" = []))
    ∧ ((∃ vm ∈ vms, vm.create_start_time = some 0 ∨ vm.bootable_time = some 0) →
        GetTimeToBoot fl vms = none) := by
  constructor
  · intro s i hi hsome
    refine ⟨?_, ?_, ?_, ?_⟩
    · intro hset
      have h1 := getTimeToBoot_instValues hsome hi "Time to Create Async Return"
      rw [vmBootSamples_filter_car, hset] at h1
      simpa [truthy] using h1
    · intro hset
      have h1 := getTimeToBoot_instValues hsome hi "Time to Running"
      rw [vmBootSamples_filter_running, hset] at h1
      simpa [truthy] using h1
    · intro hset
      have h1 := getTimeToBoot_instValues hsome hi "Time to SSH - External"
      rw [vmBootSamples_filter_sshExt, hset] at h1
      simpa [truthy] using h1
    · intro hset
      have h1 := getTimeToBoot_instValues hsome hi "Time to SSH - Internal"
      rw [vmBootSamples_filter_sshInt, hset] at h1
      simpa [truthy] using h1
  · intro hbad
    rcases hbad with ⟨vm, hvm, hc | hc⟩
    · exact (getTimeToBoot_none_char fl vms).mpr
        ⟨vm, hvm, by simp [fatalVm, hc, truthy]⟩
    · exact (getTimeToBoot_none_char fl vms).mpr
        ⟨vm, hvm, by simp [fatalVm, hc, truthy]⟩

/-- Witness for C10 at concrete inputs: an instance whose is_running_time is
set to 0 gets no Time to Running sample, and an instance whose
create_start_time is set to 0 makes the call fail. -/
theorem truthiness_decides_presence_witness :
    (∃ s, GetTimeToBoot ⟨false, false⟩
        [⟨"linux", true, some 10, some 0, some 0, some 0, some 0, some 20,
          none, none, 0, 0⟩] = some s
      ∧ instValues s 0 "Time to Running" = [])
    ∧ GetTimeToBoot ⟨false, false⟩
        [⟨"linux", true, some 0, none, none, none, none, some 20,
          none, none, 0, 0⟩] = none := by
  have heval : GetTimeToBoot ⟨false, false⟩
      [⟨"linux", true, some 10, some 0, some 0, some 0, some 0, some 20,
        none, none, 0, 0⟩]
      = some
        [⟨"Boot Time", 10, "seconds", ⟨some 0, 1, "linux", some 0, none⟩⟩,
         ⟨"Cluster Boot Time", 10, "seconds", ⟨none, 1, "linux", none, some 0⟩⟩] := by
    norm_num [GetTimeToBoot, bootLoop, bootVmStep, vmBootSamples, pyMin, truthy, tv,
      sortStrings, sortIns, setAdd, String.intercalate, String.intercalate.go]
  constructor
  · refine ⟨_, heval, ?_⟩
    exact ((truthiness_decides_presence ⟨false, false⟩
      [⟨"linux", true, some 10, some 0, some 0, some 0, some 0, some 20,
        none, none, 0, 0⟩]).1 _ 0 (by norm_num) heval).2.1 rfl
  · exact (truthiness_decides_presence ⟨false, false⟩
      [⟨"linux", true, some 0, none, none, none, none, some 20,
        none, none, 0, 0⟩]).2
      ⟨_, List.mem_cons_self _ _, Or.inl rfl⟩
